import Mathlib

/-!
# Verification of `programmatic_tool_client.py`

A shallow embedding of the reusable client library for programmatic tool
calling (`src/Research/programmatic_tool_client.py`) together with proofs
of the specification's claims about it.

The embedding translates the Python source into executable Lean
definitions:

* Python values that flow through tool handlers are modelled by `Json`
  (handlers return a string or a JSON-serializable value), and Python's
  `json.dumps` by `Json.dumps` on that fragment.
* The tool registry `self._tools` (a Python `dict`) is modelled by an
  association list with dict-assignment semantics (`dictSet` replaces the
  entry for an existing key in place, otherwise appends).
* A Python exception is modelled by `PyExn`, carrying the exception's
  class name (`type(e).__name__`) and message (`str(e)`).
* The model transport (`self._client.messages.create`) is a black-box
  function from the conversation so far to a response, as in the spec.
* The unbounded `while True:` loop of `run` is modelled by a fuel-indexed
  step function `runLoop`; `none` means the fuel ran out before the loop
  reached a terminal response.
-/

/-- A JSON-serializable Python value: the values tool handlers may return
and the values appearing in a tool invocation's argument object. -/
inductive Json where
  | null : Json
  | bool (b : Bool) : Json
  | num (n : Int) : Json
  | str (s : String) : Json
  | arr (xs : List Json) : Json
  | obj (kvs : List (String × Json)) : Json

/-- Escape one character as inside a Python `json.dumps` string literal. -/
def escapeJsonChar (c : Char) : String :=
  if c = '"' then "\\\""
  else if c = '\\' then "\\\\"
  else if c = '\n' then "\\n"
  else if c = '\t' then "\\t"
  else if c = '\r' then "\\r"
  else String.singleton c

/-- Escape a string as inside a Python `json.dumps` string literal. -/
def escapeJson (s : String) : String :=
  String.join (s.toList.map escapeJsonChar)

mutual

/-- Python's `json.dumps` with default separators, on the `Json`
fragment. -/
def Json.dumps : Json → String
  | .null => "null"
  | .bool true => "true"
  | .bool false => "false"
  | .num n => toString n
  | .str s => "\"" ++ escapeJson s ++ "\""
  | .arr xs => "[" ++ Json.dumpsArr xs ++ "]"
  | .obj kvs => "\x7b" ++ Json.dumpsObj kvs ++ "\x7d"

/-- Serialize the elements of a JSON array, `", "`-separated. -/
def Json.dumpsArr : List Json → String
  | [] => ""
  | [x] => Json.dumps x
  | x :: y :: xs => Json.dumps x ++ ", " ++ Json.dumpsArr (y :: xs)

/-- Serialize the members of a JSON object, `", "`-separated. -/
def Json.dumpsObj : List (String × Json) → String
  | [] => ""
  | [(k, v)] => "\"" ++ escapeJson k ++ "\": " ++ Json.dumps v
  | (k, v) :: m :: kvs =>
      "\"" ++ escapeJson k ++ "\": " ++ Json.dumps v ++ ", " ++
        Json.dumpsObj (m :: kvs)

end

/-- A raised Python exception as `_execute_tool` observes it:
`type(e).__name__` and `str(e)`. -/
structure PyExn where
  kind : String
  msg : String
deriving Repr, DecidableEq

/-- A tool handler: called with the invocation's argument object unpacked
as keyword arguments; either returns a (JSON-serializable) value or raises.
The `async`/sync distinction of the source collapses here because both
branches of `_execute_tool` produce the awaited result. -/
def Handler : Type := List (String × Json) → Except PyExn Json

/-- `ToolDefinition` from the source: a registered tool with its handler
and API schema. -/
structure ToolDefinition where
  name : String
  description : String
  input_schema : Json
  handler : Handler
  allowed_callers : List String

/-- The registry `self._tools : dict[str, ToolDefinition]`, as an
association list whose keys are unique (Python dict keys are). -/
def Registry : Type := List (String × ToolDefinition)

/-- Python dict assignment `d[k] = v`: replace the entry for `k` in place
if present, otherwise append a new entry. -/
def dictSet {α : Type} (d : List (String × α)) (k : String) (v : α) :
    List (String × α) :=
  match d with
  | [] => [(k, v)]
  | (k₁, v₁) :: rest =>
      if k₁ = k then (k, v) :: rest else (k₁, v₁) :: dictSet rest k v

/-- Python dict lookup `d.get(k)` / `k in d`: first (only) entry for `k`. -/
def dictGet {α : Type} (d : List (String × α)) (k : String) : Option α :=
  match d with
  | [] => none
  | (k₁, v₁) :: rest => if k₁ = k then some v₁ else dictGet rest k

/-- How many entries of the dict carry key `k`. -/
def countKey {α : Type} (d : List (String × α)) (k : String) : Nat :=
  (d.filter (fun p => p.1 = k)).length

/-- The body of the `tool` decorator (lines 129-138): register
`ToolDefinition` under `tool_name`, overwriting any prior entry. -/
def registerTool (tools : Registry) (td : ToolDefinition) : Registry :=
  dictSet tools td.name td

/-- Line 172 of `_execute_tool`:
`result if isinstance(result, str) else json.dumps(result)`. -/
def serializeReturn (result : Json) : String :=
  match result with
  | .str s => s
  | _ => Json.dumps result

/-- `_execute_tool` (lines 160-174): execute a registered tool handler and
return the result as a string. Unknown names and raising handlers both
yield error strings; the function is total, so dispatch never raises. -/
def executeTool (tools : Registry) (name : String)
    (input_data : List (String × Json)) : String :=
  match dictGet tools name with
  | none => "Error: Unknown tool '" ++ name ++ "'"
  | some td =>
      match td.handler input_data with
      | .ok result => serializeReturn result
      | .error e => "Error: " ++ e.kind ++ ": " ++ e.msg

/-- A content block of a model response or conversation turn. `text`
carries the block's `text` field; `toolUse` carries `id`, `name`, `input`
and the `type` field of the optional `caller` tag (`none` when the block
has no caller key, or the caller dict has no `type`); `toolResult` is the
shape built on lines 298-302; `other` stands for any further block type
(e.g. code-execution blocks), identified only by its `type` tag. -/
inductive Entry where
  | text (s : String) : Entry
  | toolUse (id : String) (name : String) (input : List (String × Json))
      (caller : Option String) : Entry
  | toolResult (tool_use_id : String) (content : String) : Entry
  | other (ty : String) : Entry

/-- The fields of a `tool_use` block that the run loop reads. -/
structure ToolCall where
  id : String
  name : String
  input : List (String × Json)
  caller : Option String

/-- `_extract_tool_calls` (lines 194-197): all `tool_use` blocks of the
assistant content, in order. -/
def extractToolCalls (content : List Entry) : List ToolCall :=
  content.filterMap fun e =>
    match e with
    | .toolUse id name input caller => some ⟨id, name, input, caller⟩
    | _ => none

/-- `_is_programmatic` (lines 199-203):
`tool_call.get("caller", {}).get("type", "") != "direct"`. -/
def isProgrammatic (tc : ToolCall) : Bool :=
  (tc.caller.getD "") != "direct"

/-- The list comprehension of lines 272-276 (and, identically on these
blocks, lines 321-325): the `text` field of every `text` block, in
order. -/
def textParts (content : List Entry) : List String :=
  content.filterMap fun e =>
    match e with
    | .text s => some s
    | _ => none

/-- The content of a conversation turn: the initial user turn carries a
plain string, later turns carry lists of content entries. -/
inductive MsgContent where
  | str (s : String) : MsgContent
  | entries (es : List Entry) : MsgContent

/-- One conversation turn, `{"role": ..., "content": ...}`. -/
structure Message where
  role : String
  content : MsgContent

/-- The `usage` record of a response; absent counters read as 0
(`usage.get("input_tokens", 0)`). -/
structure Usage where
  input_tokens : Nat
  output_tokens : Nat

/-- A truthy `container` value of a response: a session descriptor whose
`id` key may be absent. (`expires_at` only feeds the advisory
`_check_container_expiry` print and is not modelled.) -/
structure Container where
  id : Option String

/-- A model response as `run` reads it from `response.model_dump()`:
`stop_reason` (absent reads as `""`), `content`, `usage`, and the
optional `container` descriptor (`none` also covers a falsy empty
dict, which line 262 skips and which likewise leaves the held id
unchanged). -/
structure ModelResponse where
  stop_reason : String
  content : List Entry
  usage : Usage
  container : Option Container

/-- The black-box model transport: one blocking call-and-response
primitive, a function of the conversation sent to it. -/
def Transport : Type := List Message → ModelResponse

/-- `RunResult` from the source: the final result of a run. -/
structure RunResult where
  text : String
  tool_calls_made : Nat
  container_id : Option String
  total_input_tokens : Nat
  total_output_tokens : Nat
  raw_messages : List ModelResponse

/-- The loop-local state of `run`: the conversation so far and the
running totals (lines 230-235), plus the currently held container id. -/
structure LoopState where
  messages : List Message
  total_input : Nat
  total_output : Nat
  total_tool_calls : Nat
  all_raw : List ModelResponse
  container_id : Option String

/-- Lines 261-264: adopt a session id carried by the response;
`container.get("id", container_id)` keeps the held id when the
descriptor lacks an `id`, and an absent (or falsy) descriptor skips the
update entirely. -/
def updateContainer (container_id : Option String)
    (container : Option Container) : Option String :=
  match container with
  | none => container_id
  | some c =>
      match c.id with
      | some i => some i
      | none => container_id

/-- One iteration of the `while True:` loop of `run` (lines 237-333):
call the transport, accumulate usage, adopt the container id, then branch
on the stop reason. `.inr` is a `return` (terminal), `.inl` the updated
state for the next iteration. -/
def runStep (tools : Registry) (transport : Transport) (st : LoopState) :
    LoopState ⊕ RunResult :=
  let raw := transport st.messages
  let all_raw := st.all_raw ++ [raw]
  let total_input := st.total_input + raw.usage.input_tokens
  let total_output := st.total_output + raw.usage.output_tokens
  let container_id := updateContainer st.container_id raw.container
  let content := raw.content
  if raw.stop_reason = "end_turn" then
    .inr { text := String.intercalate "\n" (textParts content),
           tool_calls_made := st.total_tool_calls,
           container_id := container_id,
           total_input_tokens := total_input,
           total_output_tokens := total_output,
           raw_messages := all_raw }
  else if raw.stop_reason = "tool_use" then
    let tool_calls := extractToolCalls content
    let tool_results := tool_calls.map fun tc =>
      Entry.toolResult tc.id (executeTool tools tc.name tc.input)
    .inl { messages := st.messages ++
             [{ role := "assistant", content := .entries content },
              { role := "user", content := .entries tool_results }],
           total_input := total_input,
           total_output := total_output,
           total_tool_calls := st.total_tool_calls + tool_calls.length,
           all_raw := all_raw,
           container_id := container_id }
  else
    let joined := String.intercalate "\n" (textParts content)
    .inr { text := if joined = "" then
             "Unexpected stop: " ++ raw.stop_reason
           else joined,
           tool_calls_made := st.total_tool_calls,
           container_id := container_id,
           total_input_tokens := total_input,
           total_output_tokens := total_output,
           raw_messages := all_raw }

/-- Lines 230-235: the state on entry to the loop — a single user turn
and zeroed totals. -/
def initialState (user_message : String) (container_id : Option String) :
    LoopState :=
  { messages := [{ role := "user", content := .str user_message }],
    total_input := 0, total_output := 0, total_tool_calls := 0,
    all_raw := [], container_id := container_id }

/-- The `while True:` loop, indexed by fuel: `none` means the fuel was
exhausted before a terminal response arrived. -/
def runLoop (tools : Registry) (transport : Transport) :
    Nat → LoopState → Option RunResult
  | 0, _ => none
  | Nat.succ fuel, st =>
      match runStep tools transport st with
      | .inr result => some result
      | .inl st₁ => runLoop tools transport fuel st₁

/-- `run` (lines 207-333), fuel-indexed. -/
def run (tools : Registry) (transport : Transport) (user_message : String)
    (container_id : Option String) (fuel : Nat) : Option RunResult :=
  runLoop tools transport fuel (initialState user_message container_id)

/-- Whether a handler return value is a Python `str`
(`isinstance(result, str)`). -/
def Json.isStr : Json → Bool
  | .str _ => true
  | _ => false

/-- How many individual tool invocations a response contributes to the
run's counter: on a `tool_use` turn, one per extracted `tool_use` block
(line 293); on a terminal turn, none. -/
def countInvocations (resp : ModelResponse) : Nat :=
  if resp.stop_reason = "tool_use" then
    (extractToolCalls resp.content).length
  else 0

instance : Inhabited RunResult :=
  ⟨{ text := "", tool_calls_made := 0, container_id := none,
     total_input_tokens := 0, total_output_tokens := 0,
     raw_messages := [] }⟩

/-! Concrete fixtures used to instantiate the theorems below on closed
inputs. -/

/-- A handler that returns the number 1. -/
def wHandlerOne : Handler := fun _ => Except.ok (Json.num 1)

/-- A handler that returns the number 2. -/
def wHandlerTwo : Handler := fun _ => Except.ok (Json.num 2)

/-- A handler that raises `ValueError("bad input")`. -/
def wHandlerRaise : Handler := fun _ => Except.error ⟨"ValueError", "bad input"⟩

/-- First registration of the tool named `t`. -/
def wToolOne : ToolDefinition :=
  { name := "t", description := "first", input_schema := Json.obj [],
    handler := wHandlerOne, allowed_callers := ["direct"] }

/-- Second registration of the tool named `t`. -/
def wToolTwo : ToolDefinition :=
  { name := "t", description := "second", input_schema := Json.obj [],
    handler := wHandlerTwo, allowed_callers := ["direct"] }

/-- A registry holding the single tool `t` (second registration). -/
def wTools : Registry := registerTool [] wToolTwo

/-- A registry whose tool `t` raises. -/
def wToolsRaise : Registry :=
  registerTool [] { wToolTwo with handler := wHandlerRaise }

/-- An `end_turn` response with one text block and no container. -/
def wRespEndTurn : ModelResponse :=
  { stop_reason := "end_turn", content := [Entry.text "done"],
    usage := { input_tokens := 3, output_tokens := 4 }, container := none }

/-- A `tool_use` response carrying one direct and one programmatic
invocation of `t`, and no container. -/
def wRespToolUse : ModelResponse :=
  { stop_reason := "tool_use",
    content := [Entry.toolUse "tu1" "t" [] (some "direct"),
                Entry.toolUse "tu2" "t" [] none],
    usage := { input_tokens := 1, output_tokens := 2 }, container := none }

/-- A response with an unrecognized stop reason and no text blocks. -/
def wRespWeird : ModelResponse :=
  { stop_reason := "max_tokens", content := [Entry.other "thinking"],
    usage := { input_tokens := 5, output_tokens := 6 }, container := none }

/-- A transport that always answers `tool_use`. -/
def wTransportTU : Transport := fun _ => wRespToolUse

/-- A transport that always answers `end_turn`. -/
def wTransportET : Transport := fun _ => wRespEndTurn

/-- A transport that answers `tool_use` to the opening message and
`end_turn` once tool results have been appended. -/
def wTransportRun : Transport := fun msgs =>
  if msgs.length ≤ 1 then wRespToolUse else wRespEndTurn

/-- The result of the two-exchange run against `wTransportRun`. -/
def wRunResult : RunResult :=
  (run wTools wTransportRun "q" none 3).getD default

/-- The result of a one-exchange run against `wTransportET`, starting
from a caller-supplied container id. -/
def wRunResultET : RunResult :=
  (run wTools wTransportET "hi" (some "c1") 1).getD default

/-- A handler that returns the string `hello`. -/
def wHandlerStr : Handler := fun _ => Except.ok (Json.str "hello")

/-- A registration of `t` whose handler returns a string. -/
def wToolStr : ToolDefinition :=
  { name := "t", description := "string", input_schema := Json.obj [],
    handler := wHandlerStr, allowed_callers := ["direct"] }

/-- A registry whose tool `t` returns a string. -/
def wToolsStr : Registry := registerTool [] wToolStr

/-- A transport that always answers with an unrecognized stop reason. -/
def wTransportWeird : Transport := fun _ => wRespWeird

/-! ### Registry lemmas -/

/-- After a dict assignment, lookup of the assigned key finds the
assigned value. -/
theorem dictGet_dictSet_self {α : Type} (d : List (String × α))
    (k : String) (v : α) : dictGet (dictSet d k v) k = some v := by
  induction d with
  | nil => simp [dictSet, dictGet]
  | cons p rest ih =>
      obtain ⟨k₁, v₁⟩ := p
      by_cases h : k₁ = k
      · simp [dictSet, dictGet, h]
      · simp [dictSet, dictGet, h, ih]

/-- Prepending an entry for the counted key bumps the count. -/
theorem countKey_cons_self {α : Type} (rest : List (String × α))
    (k : String) (v : α) :
    countKey ((k, v) :: rest) k = countKey rest k + 1 := by
  simp [countKey, List.filter_cons]

/-- Prepending an entry for a different key leaves the count alone. -/
theorem countKey_cons_of_ne {α : Type} (rest : List (String × α))
    (k₁ k : String) (v₁ : α) (h : k₁ ≠ k) :
    countKey ((k₁, v₁) :: rest) k = countKey rest k := by
  simp [countKey, List.filter_cons, h]

/-- A key that is absent from the dict has no entries. -/
theorem countKey_eq_zero {α : Type} (d : List (String × α)) (k : String)
    (h : k ∉ d.map Prod.fst) : countKey d k = 0 := by
  induction d with
  | nil => rfl
  | cons p rest ih =>
      obtain ⟨k₁, v₁⟩ := p
      simp only [List.map_cons, List.mem_cons, not_or] at h
      rw [countKey_cons_of_ne rest k₁ k v₁ (fun hpk => h.1 hpk.symm)]
      exact ih h.2

/-- Every key of `dictSet d k v` is a key of `d` or is `k` itself. -/
theorem mem_keys_dictSet {α : Type} (d : List (String × α))
    (k x : String) (v : α) (h : x ∈ (dictSet d k v).map Prod.fst) :
    x ∈ d.map Prod.fst ∨ x = k := by
  induction d with
  | nil => simp [dictSet] at h; simp [h]
  | cons p rest ih =>
      obtain ⟨k₁, v₁⟩ := p
      by_cases hk : k₁ = k
      · simp only [dictSet, if_pos hk, List.map_cons, List.mem_cons] at h
        rcases h with h | h
        · exact Or.inr h
        · exact Or.inl (List.mem_cons_of_mem _ h)
      · simp only [dictSet, if_neg hk, List.map_cons, List.mem_cons] at h
        rcases h with h | h
        · exact Or.inl (by simp [h])
        · rcases ih h with h₁ | h₁
          · exact Or.inl (List.mem_cons_of_mem _ h₁)
          · exact Or.inr h₁

/-- Dict assignment preserves uniqueness of keys. -/
theorem nodup_keys_dictSet {α : Type} (d : List (String × α))
    (k : String) (v : α) (h : (d.map Prod.fst).Nodup) :
    ((dictSet d k v).map Prod.fst).Nodup := by
  induction d with
  | nil => simp [dictSet]
  | cons p rest ih =>
      obtain ⟨k₁, v₁⟩ := p
      simp only [List.map_cons, List.nodup_cons] at h
      by_cases hk : k₁ = k
      · subst hk
        simpa [dictSet, List.nodup_cons] using h
      · simp only [dictSet, if_neg hk, List.map_cons, List.nodup_cons]
        refine ⟨fun hmem => ?_, ih h.2⟩
        rcases mem_keys_dictSet rest k k₁ v hmem with h₁ | h₁
        · exact h.1 h₁
        · exact hk h₁

/-- On a dict with unique keys, assignment leaves exactly one entry for
the assigned key. -/
theorem countKey_dictSet {α : Type} (d : List (String × α))
    (k : String) (v : α) (h : (d.map Prod.fst).Nodup) :
    countKey (dictSet d k v) k = 1 := by
  induction d with
  | nil => simp [dictSet, countKey, List.filter_cons]
  | cons p rest ih =>
      obtain ⟨k₁, v₁⟩ := p
      simp only [List.map_cons, List.nodup_cons] at h
      by_cases hk : k₁ = k
      · subst hk
        rw [show dictSet ((k₁, v₁) :: rest) k₁ v = (k₁, v) :: rest from by
          simp [dictSet]]
        rw [countKey_cons_self, countKey_eq_zero rest k₁ h.1]
      · rw [show dictSet ((k₁, v₁) :: rest) k v =
              (k₁, v₁) :: dictSet rest k v from by simp [dictSet, hk]]
        rw [countKey_cons_of_ne _ _ _ _ hk]
        exact ih h.2

/-! ### Run-loop step lemmas -/

/-- On an `end_turn` response, one loop iteration returns the result
record built on lines 277-284. -/
theorem runStep_endTurn (tools : Registry) (transport : Transport)
    (st : LoopState)
    (h : (transport st.messages).stop_reason = "end_turn") :
    runStep tools transport st = Sum.inr
      { text := String.intercalate "\n"
          (textParts (transport st.messages).content),
        tool_calls_made := st.total_tool_calls,
        container_id :=
          updateContainer st.container_id (transport st.messages).container,
        total_input_tokens :=
          st.total_input + (transport st.messages).usage.input_tokens,
        total_output_tokens :=
          st.total_output + (transport st.messages).usage.output_tokens,
        raw_messages := st.all_raw ++ [transport st.messages] } := by
  simp only [runStep]
  rw [if_pos h]

/-- On a `tool_use` response, one loop iteration continues with the
state built on lines 286-318. -/
theorem runStep_toolUse (tools : Registry) (transport : Transport)
    (st : LoopState)
    (h : (transport st.messages).stop_reason = "tool_use") :
    runStep tools transport st = Sum.inl
      { messages := st.messages ++
          [{ role := "assistant",
             content := .entries (transport st.messages).content },
           { role := "user", content := .entries
              ((extractToolCalls (transport st.messages).content).map
                fun tc =>
                  Entry.toolResult tc.id (executeTool tools tc.name tc.input)) }],
        total_input :=
          st.total_input + (transport st.messages).usage.input_tokens,
        total_output :=
          st.total_output + (transport st.messages).usage.output_tokens,
        total_tool_calls := st.total_tool_calls +
          (extractToolCalls (transport st.messages).content).length,
        all_raw := st.all_raw ++ [transport st.messages],
        container_id :=
          updateContainer st.container_id (transport st.messages).container }
      := by
  simp only [runStep]
  rw [if_neg (by rw [h]; decide), if_pos h]

/-- On a response with any other stop reason, one loop iteration returns
the fallback record built on lines 319-333. -/
theorem runStep_other (tools : Registry) (transport : Transport)
    (st : LoopState)
    (h1 : (transport st.messages).stop_reason ≠ "end_turn")
    (h2 : (transport st.messages).stop_reason ≠ "tool_use") :
    runStep tools transport st = Sum.inr
      { text :=
          if String.intercalate "\n"
              (textParts (transport st.messages).content) = "" then
            "Unexpected stop: " ++ (transport st.messages).stop_reason
          else
            String.intercalate "\n" (textParts (transport st.messages).content),
        tool_calls_made := st.total_tool_calls,
        container_id :=
          updateContainer st.container_id (transport st.messages).container,
        total_input_tokens :=
          st.total_input + (transport st.messages).usage.input_tokens,
        total_output_tokens :=
          st.total_output + (transport st.messages).usage.output_tokens,
        raw_messages := st.all_raw ++ [transport st.messages] } := by
  simp only [runStep]
  rw [if_neg h1, if_neg h2]

/-- A response that is not a `tool_use` turn contributes no invocations. -/
theorem countInvocations_of_ne (resp : ModelResponse)
    (h : resp.stop_reason ≠ "tool_use") : countInvocations resp = 0 := by
  simp [countInvocations, h]

/-- A `tool_use` turn contributes one invocation per extracted block. -/
theorem countInvocations_toolUse (resp : ModelResponse)
    (h : resp.stop_reason = "tool_use") :
    countInvocations resp = (extractToolCalls resp.content).length := by
  simp [countInvocations, h]

/-- Every result the fueled loop returns is the terminal outcome of one
final iteration. -/
theorem runLoop_final_step (tools : Registry) (transport : Transport) :
    ∀ (fuel : Nat) (st : LoopState) (r : RunResult),
      runLoop tools transport fuel st = some r →
      ∃ stF, runStep tools transport stF = Sum.inr r := by
  intro fuel
  induction fuel with
  | zero => intro st r h; exact absurd h (by simp [runLoop])
  | succ n ih =>
      intro st r h
      rw [runLoop] at h
      cases hstep : runStep tools transport st with
      | inr res =>
          simp only [hstep] at h
          obtain rfl := Option.some.inj h
          exact ⟨st, hstep⟩
      | inl st₁ =>
          simp only [hstep] at h
          exact ih st₁ r h

/-- Loop invariant: across a completed run, `raw_messages` only grows by
the responses received, the tool-call counter grows by exactly each
`tool_use` response's invocation count, and the held container id is
unchanged when none of the received responses carries a descriptor. -/
theorem runLoop_invariant (tools : Registry) (transport : Transport) :
    ∀ (fuel : Nat) (st : LoopState) (r : RunResult),
      runLoop tools transport fuel st = some r →
      ∃ new, r.raw_messages = st.all_raw ++ new ∧
        r.tool_calls_made =
          st.total_tool_calls + (new.map countInvocations).sum ∧
        ((∀ resp ∈ new, resp.container = none) →
          r.container_id = st.container_id) := by
  intro fuel
  induction fuel with
  | zero => intro st r h; exact absurd h (by simp [runLoop])
  | succ n ih =>
      intro st r h
      rw [runLoop] at h
      by_cases hTU : (transport st.messages).stop_reason = "tool_use"
      · rw [runStep_toolUse tools transport st hTU] at h
        simp only at h
        obtain ⟨new, hraw, hcount, hcont⟩ := ih _ r h
        refine ⟨transport st.messages :: new, ?_, ?_, ?_⟩
        · simpa [List.append_assoc] using hraw
        · rw [hcount]
          simp only [List.map_cons, List.sum_cons,
            countInvocations_toolUse _ hTU]
          omega
        · intro hnone
          rw [hcont (fun resp hresp => hnone resp (List.mem_cons_of_mem _ hresp))]
          simp [updateContainer, hnone (transport st.messages) (List.mem_cons_self _ _)]
      · by_cases hET : (transport st.messages).stop_reason = "end_turn"
        · rw [runStep_endTurn tools transport st hET] at h
          simp only at h
          obtain rfl := Option.some.inj h
          refine ⟨[transport st.messages], rfl, ?_, ?_⟩
          · simp [countInvocations_of_ne _ (by rw [hET]; decide)]
          · intro hnone
            simp [updateContainer,
              hnone (transport st.messages) (List.mem_singleton_self _)]
        · rw [runStep_other tools transport st hET hTU] at h
          simp only at h
          obtain rfl := Option.some.inj h
          refine ⟨[transport st.messages], rfl, ?_, ?_⟩
          · simp [countInvocations_of_ne _ hTU]
          · intro hnone
            simp [updateContainer,
              hnone (transport st.messages) (List.mem_singleton_self _)]

/-! ### Claim theorems -/

/-- C1: dispatch never raises — `executeTool` is a total function into
strings. An unregistered name yields the unknown-tool error string (the
identifiable marker), a raising handler yields an error string carrying
the exception's kind and message, and on a `tool_use` response the run
loop continues with another iteration (the step is a continuation, not a
terminal return), with those strings as the tool results. -/
theorem dispatch_error_containment (tools : Registry) (name : String)
    (a : List (String × Json)) :
    (dictGet tools name = none →
      executeTool tools name a = "Error: Unknown tool '" ++ name ++ "'") ∧
    (∀ td e, dictGet tools name = some td →
      td.handler a = Except.error e →
      executeTool tools name a = "Error: " ++ e.kind ++ ": " ++ e.msg) ∧
    (∀ (transport : Transport) (st : LoopState),
      (transport st.messages).stop_reason = "tool_use" →
      (runStep tools transport st).isLeft = true) := by
  refine ⟨?_, ?_, ?_⟩
  · intro h; simp [executeTool, h]
  · intro td e h1 h2; simp [executeTool, h1, h2]
  · intro transport st h
    rw [runStep_toolUse tools transport st h]
    rfl

/-- C1 instantiated on closed inputs: the unregistered name `db`, a
registry whose handler raises `ValueError("bad input")`, and a `tool_use`
response, on which the loop continues. -/
theorem dispatch_error_containment_witness :
    executeTool [] "db" [] = "Error: Unknown tool '" ++ "db" ++ "'" ∧
    executeTool wToolsRaise "t" [] =
      "Error: " ++ "ValueError" ++ ": " ++ "bad input" ∧
    (runStep wToolsRaise wTransportTU (initialState "hi" none)).isLeft
      = true :=
  ⟨(dispatch_error_containment [] "db" []).1 rfl,
   (dispatch_error_containment wToolsRaise "t" []).2.1 _
     ⟨"ValueError", "bad input"⟩ rfl rfl,
   (dispatch_error_containment wToolsRaise "t" []).2.2 wTransportTU
     (initialState "hi" none) rfl⟩

/-- C2: on a `tool_use` response, the conversation passed to the next
exchange is the previous conversation plus the full assistant turn
unmodified, then exactly one user turn holding exactly one tool-result
entry per extracted invocation, in invocation order, each keyed to that
invocation's id; and every entry of that turn is a tool-result entry, so
the turn holds no text entries. -/
theorem toolUse_conversation_shape (tools : Registry)
    (transport : Transport) (st : LoopState) (resp : ModelResponse)
    (hresp : transport st.messages = resp)
    (h : resp.stop_reason = "tool_use") :
    runStep tools transport st = Sum.inl
      { messages := st.messages ++
          [{ role := "assistant", content := .entries resp.content },
           { role := "user", content := .entries
              ((extractToolCalls resp.content).map fun tc =>
                Entry.toolResult tc.id (executeTool tools tc.name tc.input)) }],
        total_input := st.total_input + resp.usage.input_tokens,
        total_output := st.total_output + resp.usage.output_tokens,
        total_tool_calls :=
          st.total_tool_calls + (extractToolCalls resp.content).length,
        all_raw := st.all_raw ++ [resp],
        container_id := updateContainer st.container_id resp.container } ∧
    (∀ e ∈ (extractToolCalls resp.content).map fun tc =>
        Entry.toolResult tc.id (executeTool tools tc.name tc.input),
      ∃ i c, e = Entry.toolResult i c) := by
  subst hresp
  refine ⟨runStep_toolUse tools transport st h, ?_⟩
  intro e he
  obtain ⟨tc, _, rfl⟩ := List.mem_map.mp he
  exact ⟨_, _, rfl⟩

/-- C2 instantiated on a closed two-invocation `tool_use` response: the
new conversation is the old turn, the unmodified assistant turn, and one
user turn with exactly the two tool-result entries in order `tu1`,
`tu2`. -/
theorem toolUse_conversation_shape_witness :
    runStep wTools wTransportTU (initialState "q" none) = Sum.inl
      { messages :=
          [{ role := "user", content := MsgContent.str "q" },
           { role := "assistant",
             content := MsgContent.entries wRespToolUse.content },
           { role := "user", content := MsgContent.entries
              [Entry.toolResult "tu1" "2", Entry.toolResult "tu2" "2"] }],
        total_input := 1, total_output := 2, total_tool_calls := 2,
        all_raw := [wRespToolUse], container_id := none } := by
  have h := (toolUse_conversation_shape wTools wTransportTU
    (initialState "q" none) wRespToolUse rfl rfl).1
  exact h

/-- C3: dispatching a registered tool yields exactly the handler's own
result serialized as `_execute_tool` does on line 172: a string return
is passed through verbatim, any other return is serialized with
`json.dumps`. -/
theorem dispatch_matches_direct_call (tools : Registry) (n : String)
    (td : ToolDefinition) (a : List (String × Json)) (v : Json)
    (hreg : dictGet tools n = some td)
    (hok : td.handler a = Except.ok v) :
    executeTool tools n a = serializeReturn v ∧
    (∀ s, v = Json.str s → executeTool tools n a = s) ∧
    (v.isStr = false → executeTool tools n a = Json.dumps v) := by
  have hmain : executeTool tools n a = serializeReturn v := by
    simp [executeTool, hreg, hok]
  refine ⟨hmain, ?_, ?_⟩
  · rintro s rfl
    simpa [serializeReturn] using hmain
  · intro hns
    rw [hmain]
    cases v <;> first
      | rfl
      | exact absurd hns (by simp [Json.isStr])

/-- C3 instantiated on closed inputs: the registered handler returning
the number 2 dispatches to its `json.dumps` text, and a handler
returning the string `hello` dispatches to that string verbatim. -/
theorem dispatch_matches_direct_call_witness :
    executeTool wTools "t" [] = serializeReturn (Json.num 2) ∧
    executeTool wTools "t" [] = Json.dumps (Json.num 2) ∧
    executeTool wToolsStr "t" [] = "hello" :=
  ⟨(dispatch_matches_direct_call wTools "t" wToolTwo [] (Json.num 2)
      rfl rfl).1,
   (dispatch_matches_direct_call wTools "t" wToolTwo [] (Json.num 2)
      rfl rfl).2.2 rfl,
   (dispatch_matches_direct_call wToolsStr "t" wToolStr []
      (Json.str "hello") rfl rfl).2.1 "hello" rfl⟩

/-- C4: every completed run's result is the terminal outcome of its
final exchange, and when that final response's stop reason is
`end_turn`, the result text is the newline join of the response's text
blocks in their original order — and the empty string (still present)
when the response has no text blocks. -/
theorem endTurn_text_is_join (tools : Registry) (transport : Transport)
    (user : String) (cid : Option String) (fuel : Nat) (r : RunResult)
    (hrun : run tools transport user cid fuel = some r) :
    ∃ stF, runStep tools transport stF = Sum.inr r ∧
      ((transport stF.messages).stop_reason = "end_turn" →
        r.text = String.intercalate "\n"
          (textParts (transport stF.messages).content) ∧
        (textParts (transport stF.messages).content = [] →
          r.text = "")) := by
  obtain ⟨stF, hstep⟩ := runLoop_final_step tools transport fuel _ r hrun
  refine ⟨stF, hstep, fun hET => ?_⟩
  rw [runStep_endTurn tools transport stF hET] at hstep
  injection hstep with hstep
  subst hstep
  refine ⟨rfl, fun hnil => ?_⟩
  show String.intercalate "\n" (textParts (transport stF.messages).content) = ""
  rw [hnil]
  rfl

/-- C4 instantiated on a closed one-exchange run ending in `end_turn`
with the single text block `done`. -/
theorem endTurn_text_is_join_witness :
    wRunResultET.text =
      String.intercalate "\n" (textParts wRespEndTurn.content) ∧
    wRunResultET.text = "done" := by
  obtain ⟨stF, hstep, himp⟩ := endTurn_text_is_join wTools wTransportET
    "hi" (some "c1") 1 wRunResultET rfl
  have h := (himp rfl).1
  exact ⟨h, by rw [h]; rfl⟩

/-- C5: across a whole run, `tool_calls_made` equals the total number of
individual tool invocations over all its `tool_use` turns — each
response contributes one count per extracted invocation when its stop
reason is `tool_use` and zero otherwise, however the invocations are
distributed across turns. -/
theorem tool_calls_made_counts_all (tools : Registry)
    (transport : Transport) (user : String) (cid : Option String)
    (fuel : Nat) (r : RunResult)
    (hrun : run tools transport user cid fuel = some r) :
    r.tool_calls_made = (r.raw_messages.map countInvocations).sum := by
  obtain ⟨new, hraw, hcount, _⟩ :=
    runLoop_invariant tools transport fuel _ r hrun
  rw [hcount, hraw]
  simp [initialState]

/-- C5 instantiated on a closed run with one two-invocation `tool_use`
turn followed by `end_turn`: the counter is the sum, namely 2. -/
theorem tool_calls_made_counts_all_witness :
    wRunResult.tool_calls_made =
      (wRunResult.raw_messages.map countInvocations).sum ∧
    wRunResult.tool_calls_made = 2 :=
  ⟨tool_calls_made_counts_all wTools wTransportRun "q" none 3
     wRunResult rfl, rfl⟩

/-- C6: an invocation is classified as direct exactly when its caller
tag is the explicit value `direct`: a missing tag, or any other tag
value, classifies it as programmatic. -/
theorem caller_classification (tc : ToolCall) :
    (isProgrammatic tc = false ↔ tc.caller = some "direct") ∧
    (tc.caller = none → isProgrammatic tc = true) ∧
    (∀ v, v ≠ "direct" → tc.caller = some v →
      isProgrammatic tc = true) := by
  obtain ⟨i, n, input, caller⟩ := tc
  refine ⟨?_, ?_, ?_⟩
  · cases caller with
    | none => simp [isProgrammatic]
    | some v => simp [isProgrammatic]
  · rintro rfl
    simp [isProgrammatic]
  · rintro v hv rfl
    simp [isProgrammatic, hv]

/-- C6 instantiated on closed invocations: no tag and the tag
`code_execution` are programmatic; the tag `direct` is direct. -/
theorem caller_classification_witness :
    isProgrammatic ⟨"i1", "t", [], none⟩ = true ∧
    isProgrammatic ⟨"i2", "t", [], some "code_execution"⟩ = true ∧
    isProgrammatic ⟨"i3", "t", [], some "direct"⟩ = false :=
  ⟨(caller_classification _).2.1 rfl,
   (caller_classification _).2.2 "code_execution" (by decide) rfl,
   (caller_classification _).1.mpr rfl⟩

/-- C7: a response whose stop reason is neither `end_turn` nor
`tool_use` is terminal and non-raising: the loop returns a result whose
text is the joined text content of that response when nonempty and
otherwise the placeholder naming the unexpected stop reason, together
with the currently accumulated totals. -/
theorem unexpected_stop_is_terminal (tools : Registry)
    (transport : Transport) (st : LoopState) (resp : ModelResponse)
    (hresp : transport st.messages = resp)
    (h1 : resp.stop_reason ≠ "end_turn")
    (h2 : resp.stop_reason ≠ "tool_use") :
    runStep tools transport st = Sum.inr
      { text :=
          if String.intercalate "\n" (textParts resp.content) = "" then
            "Unexpected stop: " ++ resp.stop_reason
          else String.intercalate "\n" (textParts resp.content),
        tool_calls_made := st.total_tool_calls,
        container_id := updateContainer st.container_id resp.container,
        total_input_tokens := st.total_input + resp.usage.input_tokens,
        total_output_tokens := st.total_output + resp.usage.output_tokens,
        raw_messages := st.all_raw ++ [resp] } ∧
    (textParts resp.content = [] →
      runStep tools transport st = Sum.inr
        { text := "Unexpected stop: " ++ resp.stop_reason,
          tool_calls_made := st.total_tool_calls,
          container_id := updateContainer st.container_id resp.container,
          total_input_tokens := st.total_input + resp.usage.input_tokens,
          total_output_tokens :=
            st.total_output + resp.usage.output_tokens,
          raw_messages := st.all_raw ++ [resp] }) := by
  subst hresp
  refine ⟨runStep_other tools transport st h1 h2, fun hnil => ?_⟩
  rw [runStep_other tools transport st h1 h2, hnil]
  rfl

/-- C7 instantiated on a closed response whose stop reason is
`max_tokens` with no text blocks: the loop terminates with the
placeholder text and the accumulated totals. -/
theorem unexpected_stop_is_terminal_witness :
    runStep wTools wTransportWeird (initialState "x" none) = Sum.inr
      { text := "Unexpected stop: " ++ "max_tokens",
        tool_calls_made := 0, container_id := none,
        total_input_tokens := 0 + 5, total_output_tokens := 0 + 6,
        raw_messages := [] ++ [wRespWeird] } := by
  have h := (unexpected_stop_is_terminal wTools wTransportWeird
    (initialState "x" none) wRespWeird rfl (by decide) (by decide)).2 rfl
  exact h

/-- C8: the run loop enforces no maximum iteration count. A loop
iteration is terminal only when the response's stop reason is `end_turn`
or is unrecognized (not `tool_use`); against a transport that answers
`tool_use` on every exchange, the loop returns nothing however much fuel
it is given — it never terminates. -/
theorem loop_has_no_iteration_cap (tools : Registry)
    (transport : Transport) :
    (∀ st r, runStep tools transport st = Sum.inr r →
      (transport st.messages).stop_reason = "end_turn" ∨
      (transport st.messages).stop_reason ≠ "tool_use") ∧
    ((∀ msgs, (transport msgs).stop_reason = "tool_use") →
      ∀ fuel st, runLoop tools transport fuel st = none) := by
  constructor
  · intro st r hstep
    by_cases hTU : (transport st.messages).stop_reason = "tool_use"
    · rw [runStep_toolUse tools transport st hTU] at hstep
      exact Sum.noConfusion hstep
    · exact Or.inr hTU
  · intro hAll fuel
    induction fuel with
    | zero => intro st; rfl
    | succ n ih =>
        intro st
        rw [runLoop, runStep_toolUse tools transport st (hAll _)]
        exact ih _

/-- C8 instantiated on the closed transport that always answers
`tool_use`: with fuel for seven iterations the loop still has not
returned. -/
theorem loop_has_no_iteration_cap_witness :
    runLoop wTools wTransportTU 7 (initialState "x" none) = none :=
  (loop_has_no_iteration_cap wTools wTransportTU).2 (fun _ => rfl) 7
    (initialState "x" none)

/-- C9: last registration wins. Registering `td₁` then `td₂` under the
same name on a registry with unique keys leaves exactly one entry for
that name, the entry holds the second definition, and dispatch reaches
the second handler. -/
theorem last_registration_wins (tools : Registry)
    (td₁ td₂ : ToolDefinition) (n : String)
    (h₁ : td₁.name = n) (h₂ : td₂.name = n)
    (hu : (tools.map Prod.fst).Nodup) :
    countKey (registerTool (registerTool tools td₁) td₂) n = 1 ∧
    dictGet (registerTool (registerTool tools td₁) td₂) n = some td₂ ∧
    (∀ a v, td₂.handler a = Except.ok v →
      executeTool (registerTool (registerTool tools td₁) td₂) n a =
        serializeReturn v) := by
  simp only [registerTool, h₁, h₂]
  refine ⟨countKey_dictSet _ _ _ (nodup_keys_dictSet tools n td₁ hu),
    dictGet_dictSet_self _ _ _, ?_⟩
  intro a v hok
  simp [executeTool, dictGet_dictSet_self, hok]

/-- C9 instantiated on closed registrations of `t`: after registering
the handler returning 1 and then the handler returning 2, one entry
remains, it is the second definition, and dispatch returns the second
handler's result. -/
theorem last_registration_wins_witness :
    countKey (registerTool (registerTool [] wToolOne) wToolTwo) "t" = 1 ∧
    dictGet (registerTool (registerTool [] wToolOne) wToolTwo) "t" =
      some wToolTwo ∧
    executeTool (registerTool (registerTool [] wToolOne) wToolTwo) "t" []
      = serializeReturn (Json.num 2) := by
  obtain ⟨hc, hg, hd⟩ :=
    last_registration_wins [] wToolOne wToolTwo "t" rfl rfl (by simp)
  exact ⟨hc, hg, hd [] (Json.num 2) rfl⟩

/-- C10: the held session handle (`container_id`) is only ever replaced,
never cleared: a completed run none of whose responses carries a
container descriptor returns the caller-supplied id unchanged, a
descriptor lacking an id leaves the held id unchanged, and an absent
descriptor leaves it unchanged. -/
theorem container_id_never_cleared (tools : Registry)
    (transport : Transport) (user : String) (cid : Option String)
    (fuel : Nat) (r : RunResult) :
    (run tools transport user cid fuel = some r →
      (∀ resp ∈ r.raw_messages, resp.container = none) →
      r.container_id = cid) ∧
    (∀ cur c, c.id = none → updateContainer cur (some c) = cur) ∧
    (∀ cur, updateContainer cur none = cur) := by
  refine ⟨?_, ?_, ?_⟩
  · intro hrun hnone
    obtain ⟨new, hraw, _, hcont⟩ :=
      runLoop_invariant tools transport fuel _ r hrun
    have hres : r.container_id = (initialState user cid).container_id := by
      apply hcont
      intro resp hresp
      refine hnone resp ?_
      rw [hraw]
      simpa [initialState] using hresp
    simpa [initialState] using hres
  · intro cur c hc
    simp [updateContainer, hc]
  · intro cur
    rfl

/-- C10 instantiated on a closed run whose single `end_turn` response
carries no container descriptor: the caller-supplied id `c1` comes back
unchanged. -/
theorem container_id_never_cleared_witness :
    wRunResultET.container_id = some "c1" := by
  refine (container_id_never_cleared wTools wTransportET "hi"
    (some "c1") 1 wRunResultET).1 rfl ?_
  intro resp hresp
  rw [show wRunResultET.raw_messages = [wRespEndTurn] from rfl] at hresp
  rw [List.mem_singleton] at hresp
  subst hresp
  rfl
